import Mathlib

/-!
Shallow embedding of the WebSocket command-correlation core of
`api/app/clients/tools/structured/AIConcert.js` (class `AIConcert`).

The stateful JavaScript is modelled by explicit state passing:

* `wsCallbacks` (a JS `Map` from message id to `{output, complete, resolve, reject}`)
  becomes an insertion-ordered association list `Callbacks`; `mapHas`, `mapGet`,
  `mapSet`, `mapDelete` mirror `Map.has/get/set/delete` (`set` overwrites the
  binding in place when the key is present, preserving insertion order, and
  appends otherwise, exactly like a JS `Map`).
* Calling a stored `resolve` callback becomes emitting a resolution event
  `(id, resolvedString)`; each handler returns the new table plus the list of
  resolutions it performed.  The code never calls `reject` from the message or
  timeout paths, so every emitted event is a *resolve*, never a rejection.
* `Date.now().toString()` becomes `Nat.repr now` for an explicit `now : Nat`.
* JS truthiness of the strings `command` and `message.id` is the test against
  the empty string (with `command` itself an `Option String` to cover `undefined`).
-/

namespace AIConcert

/-- One entry of the `wsCallbacks` table, as built in `executeCommand`:
`{ output: [], complete: false, resolve, reject }`.  The single-use `resolve` and
`reject` handles are represented by the resolution events the handlers emit. -/
structure CallbackEntry where
  output : List String
  complete : Bool
  deriving Repr, DecidableEq

/-- The `wsCallbacks` JS `Map`, as an insertion-ordered association list. -/
abbrev Callbacks := List (String × CallbackEntry)

/-- JS `Map.get(k)` (`none` plays the role of `undefined`). -/
def mapGet : Callbacks → String → Option CallbackEntry
  | [], _ => none
  | p :: m, k => if p.1 = k then some p.2 else mapGet m k

/-- JS `Map.has(k)`. -/
def mapHas (m : Callbacks) (k : String) : Bool :=
  (mapGet m k).isSome

/-- JS `Map.set(k, v)`: overwrite in place if the key is present, else append. -/
def mapSet : Callbacks → String → CallbackEntry → Callbacks
  | [], k, v => [(k, v)]
  | p :: m, k, v => if p.1 = k then (k, v) :: m else p :: mapSet m k v

/-- JS `Map.delete(k)`. -/
def mapDelete : Callbacks → String → Callbacks
  | [], _ => []
  | p :: m, k => if p.1 = k then mapDelete m k else p :: mapDelete m k

/-- JS `Array.prototype.join('\n')` on the accumulated `output` array. -/
def joinNL : List String → String
  | [] => ""
  | [s] => s
  | s :: rest => s ++ "\n" ++ joinNL rest

/-- A parsed inbound frame `{id, type, content}`; `ftype` is the raw `type`
string the code compares against (`stdout`, `stderr`, `system`, `error`, …). -/
structure Frame where
  id : String
  ftype : String
  content : String
  deriving Repr, DecidableEq

/-- A resolution event: the invocation id whose `resolve` was called, paired
with the string it resolved with. -/
abbrev Resolution := String × String

/-- The body of `ws.onmessage` after a successful `JSON.parse`
(`AIConcert.js` lines 337-352):

* drop the frame unless `message.id` is truthy and `wsCallbacks.has(message.id)`;
* `stdout`/`stderr`: `callback.output.push(message.content)` (in-place mutation
  of the entry `get` returned, modelled by `mapSet` with the grown output);
* `system`/`error`: `callback.complete = true; wsCallbacks.delete(message.id);
  callback.resolve(output.join('\n') + '\n' + message.content)` — the completed
  flag lives on the just-deleted entry, so only the deletion and the resolution
  are observable afterwards;
* any other type: nothing happens. -/
def handleFrame (st : Callbacks) (m : Frame) : Callbacks × List Resolution :=
  if m.id ≠ "" ∧ mapHas st m.id = true then
    match mapGet st m.id with
    | some cb =>
      if m.ftype = "stdout" ∨ m.ftype = "stderr" then
        (mapSet st m.id { cb with output := cb.output ++ [m.content] }, [])
      else if m.ftype = "system" ∨ m.ftype = "error" then
        (mapDelete st m.id, [(m.id, joinNL cb.output ++ "\n" ++ m.content)])
      else
        (st, [])
    | none => (st, [])
  else
    (st, [])

/-- Handler `ws.onmessage` including the surrounding `try { JSON.parse … } catch`:
a raw event whose data fails to parse (`none`) is logged and discarded. -/
def onmessage (st : Callbacks) (parsed : Option Frame) : Callbacks × List Resolution :=
  match parsed with
  | none => (st, [])
  | some m => handleFrame st m

/-- The `setTimeout` callback armed in `executeCommand` (lines 117-124):
if the entry is still present and not complete, mark it complete, delete it,
and resolve with the timeout message built from the partial output. -/
def handleTimeout (st : Callbacks) (id : String) : Callbacks × List Resolution :=
  match mapGet st id with
  | some cb =>
    if cb.complete = false then
      (mapDelete st id,
       [(id, "Command execution timed out after 30 seconds. Partial output:\n"
              ++ joinNL cb.output)])
    else (st, [])
  | none => (st, [])

/-- The synchronous registration part of `executeCommand` (lines 87-114):
reject on a falsy `command` (absent or empty); otherwise allocate
`messageId = Date.now().toString()`, store a fresh entry, and send
`{id, type: 'command', content: {command}}`.  The result carries the new
table, the allocated id, and the command placed in the outbound frame. -/
def executeCommand (st : Callbacks) (command : Option String) (now : Nat) :
    Except String (Callbacks × String × String) :=
  match command with
  | none => .error "Missing required field: command"
  | some c =>
    if c = "" then .error "Missing required field: command"
    else
      let messageId := Nat.repr now
      .ok (mapSet st messageId { output := [], complete := false }, messageId, c)

/-- The `WebSocket.readyState` values. -/
inductive ReadyState where
  | CONNECTING
  | OPEN
  | CLOSING
  | CLOSED
  deriving Repr, DecidableEq

/-- One `WebSocket` object; `connId` distinguishes distinct `new WebSocket(…)`
allocations. -/
structure Conn where
  connId : Nat
  readyState : ReadyState
  deriving Repr, DecidableEq

/-- The connection-owning state of the tool: `this.wsConnection` plus an
allocation counter for fresh `WebSocket` objects. -/
structure ConnMgr where
  wsConnection : Option Conn
  nextId : Nat
  deriving Repr, DecidableEq

/-- What a call of `getWebSocketConnection` did: returned the already-open
socket at once, or constructed (and stored) a brand-new connecting socket
whose promise is still pending. -/
inductive ConnAttempt where
  | reused (c : Conn)
  | opened (c : Conn)
  deriving Repr, DecidableEq

/-- The synchronous part of `getWebSocketConnection` (lines 314-329):
if `this.wsConnection` exists and `readyState === OPEN`, return it unchanged;
otherwise construct a fresh `WebSocket` (state `CONNECTING`), overwrite
`this.wsConnection` with it, and return the pending attempt. -/
def getWebSocketConnection (st : ConnMgr) : ConnMgr × ConnAttempt :=
  match st.wsConnection with
  | some c =>
    if c.readyState = ReadyState.OPEN then (st, ConnAttempt.reused c)
    else
      let c' : Conn := { connId := st.nextId, readyState := ReadyState.CONNECTING }
      ({ wsConnection := some c', nextId := st.nextId + 1 }, ConnAttempt.opened c')
  | none =>
      let c' : Conn := { connId := st.nextId, readyState := ReadyState.CONNECTING }
      ({ wsConnection := some c', nextId := st.nextId + 1 }, ConnAttempt.opened c')

/-- Events the single-threaded event loop can dispatch against the table while
an invocation is pending: an inbound socket message (already put through
`JSON.parse`, `none` on parse failure) or a command timeout firing. -/
inductive Ev where
  | msg (parsed : Option Frame)
  | timeout (id : String)

/-- Dispatch one event. -/
def step (st : Callbacks) : Ev → Callbacks × List Resolution
  | Ev.msg p => onmessage st p
  | Ev.timeout id => handleTimeout st id

/-- Run a sequence of events, collecting all resolutions in dispatch order. -/
def run (st : Callbacks) : List Ev → Callbacks × List Resolution
  | [] => (st, [])
  | e :: rest =>
    let r := step st e
    let r' := run r.1 rest
    (r'.1, r.2 ++ r'.2)

/-- How many of the resolutions in `rs` resolved invocation `id`. -/
def countRes (id : String) (rs : List Resolution) : Nat :=
  (rs.filter fun r => r.1 = id).length

/-- Value `1` when invocation `id` is pending in table `m`, else `0`. -/
def pendingInd (m : Callbacks) (id : String) : Nat :=
  if mapHas m id then 1 else 0

/-- Predicate that `needle` occurs as a contiguous substring of `hay`. -/
def containsStr (hay needle : String) : Prop :=
  ∃ pre post : List Char, hay.data = pre ++ needle.data ++ post

/-- The big-endian decimal digit characters of `n`, by well-founded recursion
(spelling out what `Nat.toDigitsCore` computes with enough fuel). -/
def decDigits (n : Nat) : List Char :=
  if h : n < 10 then [n.digitChar]
  else decDigits (n / 10) ++ [(n % 10).digitChar]
termination_by n
decreasing_by
  simp_wf
  omega

/-- Numeric value of a decimal digit character. -/
def digitVal (c : Char) : Nat := c.toNat - 48

theorem mapHas_of_mapGet_some {m : Callbacks} {k : String} {cb : CallbackEntry}
    (h : mapGet m k = some cb) : mapHas m k = true := by
  simp [mapHas, h]

theorem mapGet_eq_none_of_not_has {m : Callbacks} {k : String}
    (h : mapHas m k = false) : mapGet m k = none := by
  simpa [mapHas] using h

theorem mapGet_mapSet (m : Callbacks) (k : String) (v : CallbackEntry) (j : String) :
    mapGet (mapSet m k v) j = if j = k then some v else mapGet m j := by
  induction m with
  | nil =>
    simp only [mapSet, mapGet]
    by_cases h : j = k
    · rw [if_pos h.symm, if_pos h]
    · rw [if_neg (fun hkj : k = j => h hkj.symm), if_neg h]
  | cons p rest ih =>
    simp only [mapSet]
    by_cases hpk : p.1 = k
    · rw [if_pos hpk]
      simp only [mapGet]
      by_cases h : j = k
      · rw [if_pos h.symm, if_pos h]
      · rw [if_neg (fun hkj : k = j => h hkj.symm), if_neg h,
          if_neg (fun hpj : p.1 = j => h (hpk.symm.trans hpj).symm)]
    · rw [if_neg hpk]
      simp only [mapGet, ih]
      by_cases hpj : p.1 = j
      · have hjk : ¬ j = k := fun hj => hpk (hpj.trans hj)
        rw [if_pos hpj, if_neg hjk, if_pos hpj]
      · rw [if_neg hpj, if_neg hpj]

theorem mapGet_mapDelete (m : Callbacks) (k j : String) :
    mapGet (mapDelete m k) j = if j = k then none else mapGet m j := by
  induction m with
  | nil => simp [mapDelete, mapGet]
  | cons p rest ih =>
    simp only [mapDelete]
    by_cases hpk : p.1 = k
    · rw [if_pos hpk, ih]
      by_cases h : j = k
      · rw [if_pos h, if_pos h]
      · rw [if_neg h, if_neg h]
        simp only [mapGet]
        rw [if_neg (fun hpj : p.1 = j => h (hpk.symm.trans hpj).symm)]
    · rw [if_neg hpk]
      simp only [mapGet, ih]
      by_cases hpj : p.1 = j
      · have hjk : ¬ j = k := fun hj => hpk (hpj.trans hj)
        rw [if_pos hpj, if_neg hjk, if_pos hpj]
      · rw [if_neg hpj, if_neg hpj]

theorem mapHas_mapSet (m : Callbacks) (k : String) (v : CallbackEntry) (j : String) :
    mapHas (mapSet m k v) j = if j = k then true else mapHas m j := by
  unfold mapHas
  rw [mapGet_mapSet]
  split <;> rfl

theorem mapHas_mapDelete (m : Callbacks) (k j : String) :
    mapHas (mapDelete m k) j = if j = k then false else mapHas m j := by
  unfold mapHas
  rw [mapGet_mapDelete]
  split <;> rfl

theorem countRes_append (id : String) (a b : List Resolution) :
    countRes id (a ++ b) = countRes id a + countRes id b := by
  simp [countRes, List.filter_append]

theorem pendingInd_le_one (m : Callbacks) (id : String) : pendingInd m id ≤ 1 := by
  unfold pendingInd
  split <;> omega

theorem pendingInd_mono {m m' : Callbacks} {id : String}
    (h : mapHas m' id = true → mapHas m id = true) :
    pendingInd m' id ≤ pendingInd m id := by
  unfold pendingInd
  by_cases h1 : mapHas m' id = true
  · rw [if_pos h1, if_pos (h h1)]
  · rw [if_neg h1]
    split <;> omega

theorem handleFrame_of_not_has {st : Callbacks} {f : Frame}
    (h : mapHas st f.id = false) : handleFrame st f = (st, []) := by
  unfold handleFrame
  rw [if_neg (fun hc => absurd hc.2 (by simp [h]))]

theorem handleFrame_of_empty_id {st : Callbacks} {f : Frame}
    (h : f.id = "") : handleFrame st f = (st, []) := by
  unfold handleFrame
  rw [if_neg (fun hc => hc.1 h)]

theorem handleFrame_stream {st : Callbacks} {cb : CallbackEntry} {f : Frame}
    (hid : f.id ≠ "") (hget : mapGet st f.id = some cb)
    (ht : f.ftype = "stdout" ∨ f.ftype = "stderr") :
    handleFrame st f
      = (mapSet st f.id { cb with output := cb.output ++ [f.content] }, []) := by
  unfold handleFrame
  rw [if_pos ⟨hid, mapHas_of_mapGet_some hget⟩]
  simp only [hget]
  rw [if_pos ht]

theorem handleFrame_terminal {st : Callbacks} {cb : CallbackEntry} {f : Frame}
    (hid : f.id ≠ "") (hget : mapGet st f.id = some cb)
    (ht : f.ftype = "system" ∨ f.ftype = "error") :
    handleFrame st f
      = (mapDelete st f.id, [(f.id, joinNL cb.output ++ "\n" ++ f.content)]) := by
  unfold handleFrame
  have hstream : ¬ (f.ftype = "stdout" ∨ f.ftype = "stderr") := by
    rcases ht with h | h <;> rw [h] <;> simp
  rw [if_pos ⟨hid, mapHas_of_mapGet_some hget⟩]
  simp only [hget]
  rw [if_neg hstream, if_pos ht]

theorem handleFrame_of_other_type {st : Callbacks} {cb : CallbackEntry} {f : Frame}
    (hget : mapGet st f.id = some cb)
    (h1 : f.ftype ≠ "stdout") (h2 : f.ftype ≠ "stderr")
    (h3 : f.ftype ≠ "system") (h4 : f.ftype ≠ "error") :
    handleFrame st f = (st, []) := by
  unfold handleFrame
  by_cases hid : f.id = ""
  · rw [if_neg (fun hc => hc.1 hid)]
  · rw [if_pos ⟨hid, mapHas_of_mapGet_some hget⟩]
    simp only [hget]
    rw [if_neg (fun hc => hc.elim h1 h2), if_neg (fun hc => hc.elim h3 h4)]

theorem handleTimeout_fires {st : Callbacks} {cb : CallbackEntry} {id : String}
    (hget : mapGet st id = some cb) (hc : cb.complete = false) :
    handleTimeout st id
      = (mapDelete st id,
         [(id, "Command execution timed out after 30 seconds. Partial output:\n"
                ++ joinNL cb.output)]) := by
  unfold handleTimeout
  simp only [hget]
  rw [if_pos hc]

theorem handleTimeout_of_none {st : Callbacks} {id : String}
    (h : mapGet st id = none) : handleTimeout st id = (st, []) := by
  unfold handleTimeout
  simp only [h]

theorem handleTimeout_of_complete {st : Callbacks} {cb : CallbackEntry} {id : String}
    (hget : mapGet st id = some cb) (hc : cb.complete = true) :
    handleTimeout st id = (st, []) := by
  unfold handleTimeout
  simp only [hget]
  rw [if_neg (by simp [hc])]

theorem containsStr_extend_left (x y s : String) (h : containsStr y s) :
    containsStr (x ++ y) s := by
  obtain ⟨p, q, hd⟩ := h
  exact ⟨x.data ++ p, q, by simp [String.data_append, hd, List.append_assoc]⟩

theorem containsStr_self_append (x y : String) : containsStr (x ++ y) x :=
  ⟨[], y.data, by simp [String.data_append]⟩

theorem containsStr_joinNL {s : String} {l : List String} (h : s ∈ l) :
    containsStr (joinNL l) s := by
  induction l with
  | nil => cases h
  | cons a rest ih =>
    cases rest with
    | nil =>
      have hs : s = a := by simpa using h
      exact ⟨[], [], by simp [joinNL, hs]⟩
    | cons b rest2 =>
      have hj : joinNL (a :: b :: rest2) = a ++ "\n" ++ joinNL (b :: rest2) := rfl
      rcases List.mem_cons.mp h with hs | hs
      · rw [hj, hs, String.append_assoc]
        exact containsStr_self_append a ("\n" ++ joinNL (b :: rest2))
      · rw [hj]
        exact containsStr_extend_left (a ++ "\n") _ s (ih hs)

theorem toDigitsCore_succ (b f n : Nat) (acc : List Char) :
    Nat.toDigitsCore b (f + 1) n acc =
      if n / b = 0 then (n % b).digitChar :: acc
      else Nat.toDigitsCore b f (n / b) ((n % b).digitChar :: acc) := rfl

theorem toDigitsCore_eq_decDigits (fuel : Nat) :
    ∀ (n : Nat) (acc : List Char), n < fuel →
      Nat.toDigitsCore 10 fuel n acc = decDigits n ++ acc := by
  induction fuel with
  | zero => intro n acc h; omega
  | succ f ih =>
    intro n acc h
    rw [toDigitsCore_succ]
    by_cases h10 : n < 10
    · rw [if_pos (by omega), decDigits, dif_pos h10, Nat.mod_eq_of_lt h10]
      simp
    · rw [if_neg (by omega), decDigits, dif_neg h10,
        ih (n / 10) ((n % 10).digitChar :: acc) (by omega)]
      simp

theorem repr_eq_decDigits (n : Nat) : Nat.repr n = String.mk (decDigits n) := by
  show (Nat.toDigitsCore 10 (n + 1) n []).asString = String.mk (decDigits n)
  rw [toDigitsCore_eq_decDigits (n + 1) n [] (by omega)]
  simp [List.asString]

theorem digitVal_digitChar {d : Nat} (h : d < 10) :
    digitVal d.digitChar = d := by
  interval_cases d <;> rfl

theorem foldl_decDigits (n : Nat) : ∀ a : Nat,
    List.foldl (fun a c => 10 * a + digitVal c) a (decDigits n)
      = a * 10 ^ (decDigits n).length + n := by
  induction n using Nat.strong_induction_on with
  | _ n ih =>
    intro a
    by_cases h : n < 10
    · rw [decDigits, dif_pos h]
      simp [digitVal_digitChar h]
      omega
    · rw [decDigits, dif_neg h, List.foldl_append,
        ih (n / 10) (by omega) a]
      simp only [List.foldl_cons, List.foldl_nil, List.length_append,
        List.length_cons, List.length_nil]
      rw [digitVal_digitChar (by omega)]
      have hlen : (10 : Nat) ^ ((decDigits (n / 10)).length + (0 + 1))
          = 10 ^ (decDigits (n / 10)).length * 10 := by
        rw [pow_succ]
      rw [hlen, ← mul_assoc]
      generalize a * 10 ^ (decDigits (n / 10)).length = M
      omega

theorem decDigits_injective {a b : Nat} (h : decDigits a = decDigits b) : a = b := by
  have ha := foldl_decDigits a 0
  have hb := foldl_decDigits b 0
  rw [h] at ha
  omega

theorem repr_injective {a b : Nat} (h : Nat.repr a = Nat.repr b) : a = b := by
  rw [repr_eq_decDigits, repr_eq_decDigits] at h
  exact decDigits_injective (congrArg String.data h)

theorem delete_emit_bound (st : Callbacks) (k id s : String)
    (hhas : mapHas st k = true) :
    countRes id [(k, s)] + pendingInd (mapDelete st k) id ≤ pendingInd st id := by
  by_cases hj : k = id
  · subst hj
    have h1 : pendingInd (mapDelete st k) k = 0 := by
      unfold pendingInd
      rw [mapHas_mapDelete, if_pos rfl]
      simp
    have h2 : pendingInd st k = 1 := by
      unfold pendingInd
      rw [if_pos hhas]
    rw [h1, h2]
    simp [countRes]
  · have hcount : countRes id [(k, s)] = 0 := by simp [countRes, hj]
    rw [hcount, Nat.zero_add]
    apply pendingInd_mono
    intro hh
    rw [mapHas_mapDelete] at hh
    by_cases hj2 : id = k
    · exact absurd hj2.symm hj
    · rwa [if_neg hj2] at hh

theorem handleFrame_bound (st : Callbacks) (f : Frame) (id : String) :
    countRes id (handleFrame st f).2 + pendingInd (handleFrame st f).1 id
      ≤ pendingInd st id := by
  by_cases hid0 : f.id = ""
  · rw [handleFrame_of_empty_id hid0]
    simp [countRes]
  · cases hget : mapGet st f.id with
    | none =>
      rw [handleFrame_of_not_has (by simp [mapHas, hget])]
      simp [countRes]
    | some cb =>
      by_cases hs : f.ftype = "stdout" ∨ f.ftype = "stderr"
      · rw [handleFrame_stream hid0 hget hs]
        simp only [countRes, List.filter_nil, List.length_nil, Nat.zero_add]
        apply pendingInd_mono
        intro hh
        rw [mapHas_mapSet] at hh
        by_cases hj : id = f.id
        · rw [hj]
          exact mapHas_of_mapGet_some hget
        · rwa [if_neg hj] at hh
      · by_cases ht : f.ftype = "system" ∨ f.ftype = "error"
        · rw [handleFrame_terminal hid0 hget ht]
          exact delete_emit_bound st f.id id _ (mapHas_of_mapGet_some hget)
        · push_neg at hs ht
          rw [handleFrame_of_other_type hget hs.1 hs.2 ht.1 ht.2]
          simp [countRes]

theorem handleTimeout_bound (st : Callbacks) (tid id : String) :
    countRes id (handleTimeout st tid).2 + pendingInd (handleTimeout st tid).1 id
      ≤ pendingInd st id := by
  cases hget : mapGet st tid with
  | none =>
    rw [handleTimeout_of_none hget]
    simp [countRes]
  | some cb =>
    cases hc : cb.complete with
    | true =>
      rw [handleTimeout_of_complete hget hc]
      simp [countRes]
    | false =>
      rw [handleTimeout_fires hget hc]
      exact delete_emit_bound st tid id _ (mapHas_of_mapGet_some hget)

theorem step_bound (st : Callbacks) (e : Ev) (id : String) :
    countRes id (step st e).2 + pendingInd (step st e).1 id ≤ pendingInd st id := by
  cases e with
  | msg p =>
    cases p with
    | none => simp [step, onmessage, countRes]
    | some m => simpa [step, onmessage] using handleFrame_bound st m id
  | timeout tid => simpa [step] using handleTimeout_bound st tid id

theorem run_bound (evs : List Ev) : ∀ (st : Callbacks) (id : String),
    countRes id (run st evs).2 + pendingInd (run st evs).1 id ≤ pendingInd st id := by
  induction evs with
  | nil =>
    intro st id
    simp [run, countRes]
  | cons e rest ih =>
    intro st id
    have h1 := step_bound st e id
    have h2 := ih (step st e).1 id
    simp only [run, countRes_append]
    omega

/-- C1: Resolve-once.  Over any sequence of inbound frames and timeout firings
dispatched against any table, at most one resolution of a given invocation id
ever occurs (so the future never resolves twice and the entry is removed at
most once — the single resolving step is also the single deleting step); and
once the entry is gone, whichever of the timeout callback or a terminal frame
delivery runs second is a no-op: it leaves the table unchanged and resolves
nothing. -/
theorem resolve_once (st : Callbacks) (evs : List Ev) (id : String) :
    countRes id (run st evs).2 ≤ 1 ∧
    (mapHas st id = false →
      handleTimeout st id = (st, []) ∧
      ∀ t c, handleFrame st { id := id, ftype := t, content := c } = (st, [])) := by
  constructor
  · have h1 := run_bound evs st id
    have h2 := pendingInd_le_one st id
    omega
  · intro h
    exact ⟨handleTimeout_of_none (mapGet_eq_none_of_not_has h),
      fun t c => handleFrame_of_not_has (f := { id := id, ftype := t, content := c }) h⟩

/-- Witness for C1: a terminal frame and a timeout racing for id "5" produce
exactly one resolution, and the timeout callback on an absent entry is a no-op. -/
theorem resolve_once_witness :
    countRes "5" (run [("5", { output := [], complete := false })]
      [Ev.msg (some { id := "5", ftype := "system", content := "done" }),
       Ev.timeout "5"]).2 ≤ 1 ∧
    handleTimeout [] "5" = ([], []) :=
  ⟨(resolve_once [("5", { output := [], complete := false })]
      [Ev.msg (some { id := "5", ftype := "system", content := "done" }),
       Ev.timeout "5"] "5").1,
   ((resolve_once [] [] "5").2 rfl).1⟩

/-- C2: a `system` or `error` frame for a pending invocation resolves its
future (both types resolve, never reject — the handler only ever calls
`resolve`) with `join(accumulatedOutput, "\n") + "\n" + frame.content`, and
removes the entry from the table. -/
theorem terminal_frame_resolves (st : Callbacks) (cb : CallbackEntry)
    (id t c : String) (hid : id ≠ "") (hget : mapGet st id = some cb)
    (ht : t = "system" ∨ t = "error") :
    handleFrame st { id := id, ftype := t, content := c }
      = (mapDelete st id, [(id, joinNL cb.output ++ "\n" ++ c)]) ∧
    mapHas (mapDelete st id) id = false := by
  refine ⟨handleFrame_terminal hid hget ht, ?_⟩
  rw [mapHas_mapDelete, if_pos rfl]

/-- Witness for C2: the spec's scenario — a `stdout` frame `"total 0"` already
accumulated, then a `system` frame `"done"`, resolves to `"total 0\ndone"`. -/
theorem terminal_frame_resolves_witness :
    handleFrame [("1", { output := ["total 0"], complete := false })]
      { id := "1", ftype := "system", content := "done" }
      = ([], [("1", "total 0\ndone")]) := by
  have h := terminal_frame_resolves [("1", { output := ["total 0"], complete := false })]
    { output := ["total 0"], complete := false } "1" "system" "done"
    (by decide) rfl (Or.inl rfl)
  exact h.1.trans rfl

/-- C3: when the deadline timer fires while the entry is still present (and not
complete), the future resolves — it does not reject — with
`"Command execution timed out after 30 seconds. Partial output:\n"` followed by
the join of the accumulated output; the resolved string contains every fragment
appended before the deadline, and the entry is removed from the table. -/
theorem timeout_resolves_with_partial_output (st : Callbacks) (cb : CallbackEntry)
    (id : String) (hget : mapGet st id = some cb) (hc : cb.complete = false) :
    handleTimeout st id
      = (mapDelete st id,
         [(id, "Command execution timed out after 30 seconds. Partial output:\n"
                ++ joinNL cb.output)]) ∧
    mapHas (mapDelete st id) id = false ∧
    ∀ frag ∈ cb.output,
      containsStr ("Command execution timed out after 30 seconds. Partial output:\n"
                    ++ joinNL cb.output) frag := by
  refine ⟨handleTimeout_fires hget hc, ?_, ?_⟩
  · rw [mapHas_mapDelete, if_pos rfl]
  · intro frag hf
    exact containsStr_extend_left _ _ _ (containsStr_joinNL hf)

/-- Witness for C3: a timeout with two accumulated fragments resolves with both
fragments in the message, and the second fragment occurs in the string. -/
theorem timeout_resolves_with_partial_output_witness :
    handleTimeout [("7", { output := ["line one", "line two"], complete := false })] "7"
      = ([], [("7", "Command execution timed out after 30 seconds. Partial output:\nline one\nline two")]) ∧
    containsStr
      "Command execution timed out after 30 seconds. Partial output:\nline one\nline two"
      "line two" := by
  have h := timeout_resolves_with_partial_output
    [("7", { output := ["line one", "line two"], complete := false })]
    { output := ["line one", "line two"], complete := false } "7" rfl rfl
  have heq : "Command execution timed out after 30 seconds. Partial output:\n"
      ++ joinNL ["line one", "line two"]
      = "Command execution timed out after 30 seconds. Partial output:\nline one\nline two" := rfl
  exact ⟨h.1.trans rfl, heq ▸ h.2.2 "line two" (by decide)⟩

/-- Counterexample to C4 as stated: two calls of `getWebSocketConnection` while
the stored socket is still `CONNECTING` (exactly what two concurrent
`executeCommand` callers do before `onopen` fires) each construct and store a
*new* `WebSocket`, so the two callers get two distinct connection attempts —
they do not observe a single shared attempt. -/
theorem get_connection_duplicate_counterexample :
    getWebSocketConnection { wsConnection := none, nextId := 0 }
      = ({ wsConnection := some { connId := 0, readyState := ReadyState.CONNECTING },
           nextId := 1 },
         ConnAttempt.opened { connId := 0, readyState := ReadyState.CONNECTING }) ∧
    getWebSocketConnection
        { wsConnection := some { connId := 0, readyState := ReadyState.CONNECTING },
          nextId := 1 }
      = ({ wsConnection := some { connId := 1, readyState := ReadyState.CONNECTING },
           nextId := 2 },
         ConnAttempt.opened { connId := 1, readyState := ReadyState.CONNECTING }) ∧
    ConnAttempt.opened { connId := 0, readyState := ReadyState.CONNECTING }
      ≠ ConnAttempt.opened { connId := 1, readyState := ReadyState.CONNECTING } :=
  ⟨rfl, rfl, by decide⟩

/-- C4 (amended): if a connection exists and is `OPEN` it is returned
immediately and the state is unchanged; otherwise (absent or not open) the
call constructs a fresh `WebSocket`, stores it, and returns that new pending
attempt — so concurrent calls while no open connection exists each open their
own duplicate connection instead of awaiting a shared one. -/
theorem get_connection_amended (st : ConnMgr) :
    (∀ c, st.wsConnection = some c → c.readyState = ReadyState.OPEN →
      getWebSocketConnection st = (st, ConnAttempt.reused c)) ∧
    ((∀ c, st.wsConnection = some c → c.readyState ≠ ReadyState.OPEN) →
      getWebSocketConnection st
        = ({ wsConnection := some { connId := st.nextId, readyState := ReadyState.CONNECTING },
             nextId := st.nextId + 1 },
           ConnAttempt.opened { connId := st.nextId, readyState := ReadyState.CONNECTING })) := by
  constructor
  · intro c hsome hopen
    unfold getWebSocketConnection
    simp only [hsome]
    rw [if_pos hopen]
  · intro hnot
    unfold getWebSocketConnection
    cases hsome : st.wsConnection with
    | none => rfl
    | some c =>
      simp only []
      rw [if_neg (hnot c hsome)]

/-- Witness for C4 (amended): an `OPEN` connection is reused as-is; with no
stored connection a fresh `CONNECTING` socket is created and stored. -/
theorem get_connection_amended_witness :
    getWebSocketConnection
        { wsConnection := some { connId := 3, readyState := ReadyState.OPEN }, nextId := 7 }
      = ({ wsConnection := some { connId := 3, readyState := ReadyState.OPEN }, nextId := 7 },
         ConnAttempt.reused { connId := 3, readyState := ReadyState.OPEN }) ∧
    getWebSocketConnection { wsConnection := none, nextId := 0 }
      = ({ wsConnection := some { connId := 0, readyState := ReadyState.CONNECTING },
           nextId := 1 },
         ConnAttempt.opened { connId := 0, readyState := ReadyState.CONNECTING }) :=
  ⟨(get_connection_amended _).1 _ rfl rfl,
   (get_connection_amended _).2 (fun c hc => Option.noConfusion hc)⟩

/-- Counterexample to C5 as stated: two invocations registered at the same
`Date.now()` tick (here `12345`) are allocated the *same* id `"12345"`, and the
second registration overwrites the first's pending entry — its accumulated
partial output `["partial"]` is destroyed (reset to `[]`) while the table keeps
a single entry for the shared id. -/
theorem execute_same_timestamp_counterexample :
    executeCommand [] (some "first command") 12345
      = Except.ok ([("12345", { output := [], complete := false })], "12345", "first command") ∧
    handleFrame [("12345", { output := [], complete := false })]
        { id := "12345", ftype := "stdout", content := "partial" }
      = ([("12345", { output := ["partial"], complete := false })], []) ∧
    executeCommand [("12345", { output := ["partial"], complete := false })]
        (some "second command") 12345
      = Except.ok ([("12345", { output := [], complete := false })], "12345", "second command") :=
  ⟨rfl, by decide, rfl⟩

/-- C5 (amended): invocation ids are `Date.now().toString()`; invocations
issued at distinct timestamps get distinct ids (decimal printing is
injective), and registering an invocation preserves every pending entry whose
id differs from the allocated one while storing a fresh entry under the
allocated id.  Two invocations inside the same millisecond, however, share an
id and the second overwrites the first's entry (see the counterexample). -/
theorem execute_register_amended (st : Callbacks) (c : String) (now now1 now2 : Nat)
    (hc : c ≠ "") :
    executeCommand st (some c) now
      = Except.ok (mapSet st (Nat.repr now) { output := [], complete := false },
          Nat.repr now, c) ∧
    (∀ j, j ≠ Nat.repr now →
      mapGet (mapSet st (Nat.repr now) { output := [], complete := false }) j
        = mapGet st j) ∧
    mapGet (mapSet st (Nat.repr now) { output := [], complete := false }) (Nat.repr now)
      = some { output := [], complete := false } ∧
    (now1 ≠ now2 → Nat.repr now1 ≠ Nat.repr now2) := by
  refine ⟨?_, ?_, ?_, ?_⟩
  · simp only [executeCommand]
    rw [if_neg hc]
  · intro j hj
    rw [mapGet_mapSet, if_neg hj]
  · rw [mapGet_mapSet, if_pos rfl]
  · intro hne h
    exact hne (repr_injective h)

/-- Witness for C5 (amended): registering at timestamp 7 over a table holding
id "5" appends a fresh entry without touching the existing one, and timestamps
1 and 2 give distinct ids. -/
theorem execute_register_amended_witness :
    executeCommand [("5", { output := ["x"], complete := false })] (some "ls") 7
      = Except.ok ([("5", { output := ["x"], complete := false }),
                    ("7", { output := [], complete := false })], "7", "ls") ∧
    Nat.repr 1 ≠ Nat.repr 2 := by
  have h := execute_register_amended [("5", { output := ["x"], complete := false })]
    "ls" 7 1 2 (by decide)
  exact ⟨h.1.trans rfl, h.2.2.2 (by decide)⟩

/-- C6: a falsy `command` (absent or the empty string) makes `executeCommand`
fail immediately with the `Missing required field: command` error — the
rejection happens before any connection is obtained, so no frame is sent and
no table entry is created (the error result carries no table and no frame). -/
theorem empty_command_rejected (st : Callbacks) (now : Nat) :
    executeCommand st none now = Except.error "Missing required field: command" ∧
    executeCommand st (some "") now = Except.error "Missing required field: command" :=
  ⟨rfl, rfl⟩

/-- C7: an inbound frame whose id has no table entry is dropped: the table is
returned unchanged (so every pending invocation's entry — output, flag — is
untouched) and no future is resolved. -/
theorem unknown_id_frame_dropped (st : Callbacks) (f : Frame)
    (h : mapHas st f.id = false) :
    handleFrame st f = (st, []) ∧
    ∀ j, mapGet (handleFrame st f).1 j = mapGet st j := by
  have he := handleFrame_of_not_has h
  exact ⟨he, fun j => by rw [he]⟩

/-- Witness for C7: a `stdout` frame for unknown id "2" leaves a table holding
only id "1" unchanged and resolves nothing. -/
theorem unknown_id_frame_dropped_witness :
    handleFrame [("1", { output := [], complete := false })]
      { id := "2", ftype := "stdout", content := "x" }
      = ([("1", { output := [], complete := false })], []) :=
  (unknown_id_frame_dropped [("1", { output := [], complete := false })]
    { id := "2", ftype := "stdout", content := "x" } rfl).1

/-- C8: a `stdout` or `stderr` frame for a pending invocation only appends its
content to the invocation's accumulated output — no resolution is emitted and
the entry stays in the table (with the grown output). -/
theorem stream_frame_appends_only (st : Callbacks) (cb : CallbackEntry)
    (id t c : String) (hid : id ≠ "") (hget : mapGet st id = some cb)
    (ht : t = "stdout" ∨ t = "stderr") :
    handleFrame st { id := id, ftype := t, content := c }
      = (mapSet st id { cb with output := cb.output ++ [c] }, []) ∧
    mapGet (mapSet st id { cb with output := cb.output ++ [c] }) id
      = some { cb with output := cb.output ++ [c] } ∧
    mapHas (mapSet st id { cb with output := cb.output ++ [c] }) id = true := by
  refine ⟨handleFrame_stream hid hget ht, ?_, ?_⟩
  · rw [mapGet_mapSet, if_pos rfl]
  · rw [mapHas_mapSet, if_pos rfl]

/-- Witness for C8: a `stderr` frame appends `"b"` to output `["a"]` of id "1"
and resolves nothing. -/
theorem stream_frame_appends_only_witness :
    handleFrame [("1", { output := ["a"], complete := false })]
      { id := "1", ftype := "stderr", content := "b" }
      = ([("1", { output := ["a", "b"], complete := false })], []) := by
  have h := stream_frame_appends_only [("1", { output := ["a"], complete := false })]
    { output := ["a"], complete := false } "1" "stderr" "b" (by decide) rfl (Or.inr rfl)
  exact h.1.trans rfl

/-- C9: a raw inbound event whose data fails `JSON.parse` is discarded inside
the handler's catch (logged, never re-raised): the table is unchanged — every
pending invocation's entry is exactly as before — and no future is resolved. -/
theorem parse_failure_dropped (st : Callbacks) :
    onmessage st none = (st, []) ∧
    ∀ j, mapGet (onmessage st none).1 j = mapGet st j :=
  ⟨rfl, fun _ => rfl⟩

/-- C10: a frame whose id matches a pending invocation but whose type is none
of `stdout`, `stderr`, `system`, `error` falls through both type tests: the
table is unchanged, the invocation's entry is still present and identical, and
no resolution occurs. -/
theorem unrecognized_type_frame_noop (st : Callbacks) (cb : CallbackEntry) (f : Frame)
    (hget : mapGet st f.id = some cb)
    (h1 : f.ftype ≠ "stdout") (h2 : f.ftype ≠ "stderr")
    (h3 : f.ftype ≠ "system") (h4 : f.ftype ≠ "error") :
    handleFrame st f = (st, []) ∧
    mapGet (handleFrame st f).1 f.id = some cb := by
  have he := handleFrame_of_other_type hget h1 h2 h3 h4
  exact ⟨he, by rw [he]; exact hget⟩

/-- Witness for C10: an echoed `command`-typed frame for pending id "1" changes
nothing. -/
theorem unrecognized_type_frame_noop_witness :
    handleFrame [("1", { output := [], complete := false })]
      { id := "1", ftype := "command", content := "x" }
      = ([("1", { output := [], complete := false })], []) :=
  (unrecognized_type_frame_noop [("1", { output := [], complete := false })]
    { output := [], complete := false } { id := "1", ftype := "command", content := "x" }
    rfl (by decide) (by decide) (by decide) (by decide)).1

end AIConcert
